import Mathlib

/-!
Verification of the diesel_filter derive-macro core (src/query/src/lib.rs).

The macro reads a derive input (a struct with named fields, record-level
attributes) and emits: a filter-input struct (one optional member per
annotated field, plus page/per_page when pagination is requested), a
query-building function attaching one predicate per present member, and a
filtered entry point that either loads directly or paginates and counts.

The embedding below transcribes the data model and the generation pipeline
of lib.rs into executable Lean definitions.  Host-language lexing is out of
scope: attribute argument tokens and the parsed meta of an attribute are
taken as already-structured input, exactly as the original code receives
them from its parsing library.
-/

set_option linter.unusedVariables false

namespace DieselFilter

/-- Mirrors enum FilterableType of lib.rs: String, Uuid, Foreign(String). -/
inductive FilterableType where
  | string
  | uuid
  | foreign (raw : String)
deriving DecidableEq

/-- Mirrors enum FilterKind of lib.rs: Basic, Substr, Insensitive, SubstrInsensitive. -/
inductive FilterKind where
  | basic
  | substr
  | insensitive
  | substrInsensitive
deriving DecidableEq

/-- Mirrors struct FilterOpts of lib.rs. -/
structure FilterOpts where
  multiple : Bool
  kind : FilterKind
deriving DecidableEq

/-- Mirrors impl Default for FilterOpts. -/
def FilterOpts.default : FilterOpts :=
  { multiple := false, kind := FilterKind.basic }

/-- A nested meta item inside a filter attribute: either a meta whose path we
record as a string (a multi-segment path is rendered with double colons and is
never equal to a bare keyword, matching is_ident), or a literal, which the
code filters out. -/
inductive NestedMeta where
  | meta (path : String)
  | lit
deriving DecidableEq

/-- The paths kept by the filter_map over NestedMeta in FilterOpts::from. -/
def metaPaths (m : List NestedMeta) : List String :=
  m.filterMap fun n =>
    match n with
    | NestedMeta.meta p => some p
    | NestedMeta.lit => none

/-- Mirrors the local closure named matches in FilterOpts::from: every tested
keyword occurs among the collected paths. -/
def pathsMatch (m : List String) (tested : List String) : Bool :=
  tested.all fun t => m.any fun p => p == t

/-- Mirrors impl From for FilterOpts over a list of nested meta items. -/
def FilterOpts.from (m : List NestedMeta) : FilterOpts :=
  let meta := metaPaths m
  let kind :=
    if pathsMatch meta ["substring", "insensitive"] then FilterKind.substrInsensitive
    else if pathsMatch meta ["substring"] then FilterKind.substr
    else if pathsMatch meta ["insensitive"] then FilterKind.insensitive
    else FilterKind.basic
  { multiple := pathsMatch meta ["multiple"], kind := kind }

/-- Models the call to replace removing every space character from the
rendered type path, as done in the From impl for FilterableType. -/
def removeSpaces (s : String) : String :=
  String.mk (s.data.filter fun c => c ≠ Char.ofNat 32)

/-- Mirrors impl From of a type path for FilterableType: the rendered,
space-stripped type string is matched against the six recognized forms and
anything else becomes Foreign carrying the raw string. -/
def FilterableType.fromTypePath (s : String) : FilterableType :=
  match removeSpaces s with
  | "String" => FilterableType.string
  | "Uuid" => FilterableType.uuid
  | "uuid::Uuid" => FilterableType.uuid
  | "Option<String>" => FilterableType.string
  | "Option<Uuid>" => FilterableType.uuid
  | "Option<uuid::Uuid>" => FilterableType.uuid
  | other => FilterableType.foreign other

/-- Mirrors impl From of FilterableType for Ident. -/
def FilterableType.toIdent : FilterableType → String
  | FilterableType.string => "String"
  | FilterableType.uuid => "Uuid"
  | FilterableType.foreign ty => ty

/-- A token of an attribute argument stream, as consumed by TableName::parse:
an identifier, an equals sign, or anything else. -/
inductive Token where
  | ident (s : String)
  | eqTok
  | other
deriving DecidableEq

/-- Mirrors impl Parse for TableName: parse an identifier, reject it unless it
is table_name, parse an equals sign, parse the value identifier; the whole
argument stream must be consumed.  Failure is an erased error, since the
caller only keeps the ok case. -/
def TableName.parse (input : List Token) : Option String :=
  match input with
  | Token.ident attrName :: rest =>
    if attrName != "table_name" then none
    else
      match rest with
      | [Token.eqTok, Token.ident name] => some name
      | _ => none
  | _ => none

/-- The parsed meta view of an attribute, as returned by parse_meta: a list
of nested items, a bare path, or a name-value pair. -/
inductive Meta where
  | list (nested : List NestedMeta)
  | path
  | nameValue
deriving DecidableEq

/-- An attribute of the derive input: its path rendered as a string, its raw
argument tokens (used by parse_args for the table-name attribute), and its
parsed meta view (used by parse_meta for field attributes). -/
structure Attribute where
  path : String
  tokens : List Token
  meta : Meta
deriving DecidableEq

/-- The declared type of a field: a type path rendered as a string, or any
other kind of type, which the macro rejects. -/
inductive FieldType where
  | path (rendered : String)
  | other
deriving DecidableEq

/-- A field of the input data: optional identifier, declared type, attributes. -/
structure Field where
  ident : Option String
  ty : FieldType
  attrs : List Attribute
deriving DecidableEq

/-- The fields of a struct or variant: named, unnamed (tuple), or unit. -/
inductive Fields where
  | named (fields : List Field)
  | unnamed (fields : List Field)
  | unit
deriving DecidableEq

/-- An enum variant, carrying its own fields (which may carry attributes). -/
structure Variant where
  ident : String
  fields : Fields
deriving DecidableEq

/-- The data of a derive input: a struct, an enum, or a union. -/
inductive Data where
  | struct (fields : Fields)
  | enum (variants : List Variant)
  | union (fields : List Field)
deriving DecidableEq

/-- True exactly when the data is a struct with named fields, the only shape
whose fields the macro walks. -/
def Data.isNamedStruct : Data → Bool
  | Data.struct (Fields.named _) => true
  | _ => false

/-- A derive input: outer attributes, the type identifier, and the data. -/
structure DeriveInput where
  attrs : List Attribute
  ident : String
  data : Data
deriving DecidableEq

/-- Mirrors struct Filter of lib.rs: one collected filterable field. -/
structure Filter where
  name : String
  ty : FilterableType
  opts : FilterOpts
deriving DecidableEq

/-- Mirrors the table-name lookup in the derive entry point: keep attributes
whose path is diesel, try TableName parsing on the arguments of each, take
the first success. -/
def findTableName (attrs : List Attribute) : Option String :=
  ((attrs.filter fun a => a.path == "diesel").filterMap fun a =>
    TableName.parse a.tokens).head?

/-- Walks the attributes of one named field, mirroring the inner loop of the
derive entry point: non-filter attributes are skipped; a list meta yields
options via FilterOpts conversion, a bare path yields the defaults, any other
meta is skipped; a field whose type is not a type path aborts with the
unsupported-type panic, modelled as an error. -/
def collectFieldAttrs (name : String) (ty : FieldType) :
    List Attribute → Except String (List Filter)
  | [] => Except.ok []
  | attr :: rest =>
    if attr.path != "filter" then collectFieldAttrs name ty rest
    else
      match
        (match attr.meta with
         | Meta.list nested => some (FilterOpts.from nested)
         | Meta.path => some FilterOpts.default
         | Meta.nameValue => none) with
      | none => collectFieldAttrs name ty rest
      | some opts =>
        match ty with
        | FieldType.path p =>
          match collectFieldAttrs name ty rest with
          | Except.error e => Except.error e
          | Except.ok more =>
            Except.ok (Filter.mk name (FilterableType.fromTypePath p) opts :: more)
        | FieldType.other => Except.error "this type is not supported"

/-- One field of the named-field loop: fields without an identifier are
skipped. -/
def collectField (f : Field) : Except String (List Filter) :=
  match f.ident with
  | none => Except.ok []
  | some name => collectFieldAttrs name f.ty f.attrs

/-- The named-field loop, accumulating collected filters in order. -/
def collectFields : List Field → Except String (List Filter)
  | [] => Except.ok []
  | f :: rest =>
    match collectField f with
    | Except.error e => Except.error e
    | Except.ok cur =>
      match collectFields rest with
      | Except.error e => Except.error e
      | Except.ok more => Except.ok (cur ++ more)

/-- Mirrors the two nested pattern checks of the entry point: only a struct
with named fields is walked; every other data shape contributes nothing. -/
def collectData : Data → Except String (List Filter)
  | Data.struct (Fields.named fields) => collectFields fields
  | _ => Except.ok []

/-- The shape of one member of the generated filters struct: an optional
value of a rendered type, or an optional vector of values of that type. -/
inductive MemberShape where
  | opt (ty : String)
  | optList (ty : String)
deriving DecidableEq

/-- One member of the generated filters struct. -/
structure Member where
  name : String
  shape : MemberShape
deriving DecidableEq

/-- The comparison operator of a generated predicate: eq, like, or ilike. -/
inductive Op where
  | eq
  | like
  | ilike
deriving DecidableEq

/-- The argument form of a generated predicate: the raw filter value, that
value wrapped in percent wildcards on both sides, any-of over the supplied
vector, or any-of over the vector with each element wrapped individually. -/
inductive PredArg where
  | plain
  | wrapped
  | anyOf
  | anyOfWrapped
deriving DecidableEq

/-- A generated predicate: the table and column it scopes, the operator, and
the argument form. -/
structure PredRule where
  table : String
  field : String
  op : Op
  arg : PredArg
deriving DecidableEq

/-- Transcribes the per-filter predicate selection of the generation loop:
the outer branch on the multiple option, the inner match on the kind. -/
def predRule (table : String) (fieldName : String) (opts : FilterOpts) : PredRule :=
  if opts.multiple then
    match opts.kind with
    | FilterKind.basic => PredRule.mk table fieldName Op.eq PredArg.anyOf
    | FilterKind.substr => PredRule.mk table fieldName Op.like PredArg.anyOfWrapped
    | FilterKind.insensitive => PredRule.mk table fieldName Op.ilike PredArg.anyOf
    | FilterKind.substrInsensitive => PredRule.mk table fieldName Op.ilike PredArg.anyOfWrapped
  else
    match opts.kind with
    | FilterKind.basic => PredRule.mk table fieldName Op.eq PredArg.plain
    | FilterKind.substr => PredRule.mk table fieldName Op.like PredArg.wrapped
    | FilterKind.insensitive => PredRule.mk table fieldName Op.ilike PredArg.plain
    | FilterKind.substrInsensitive => PredRule.mk table fieldName Op.ilike PredArg.wrapped

/-- One generated conditional attachment: if the named member of the filters
value is present, attach the predicate to the query. -/
structure QueryStep where
  field : String
  pred : PredRule
deriving DecidableEq

/-- The state grown by the generation loop: the struct members, the
conditional attachments, and whether any filter was multiple. -/
structure LoopState where
  fields : List Member
  queries : List QueryStep
  hasMultiple : Bool
deriving DecidableEq

/-- The generation loop over the collected filters, in order: each filter
contributes one struct member (an optional vector member when multiple, an
optional value member otherwise), one conditional attachment carrying its
predicate, and raises the has-multiple flag when it is multiple. -/
def genLoop (table : String) : List Filter → LoopState
  | [] => { fields := [], queries := [], hasMultiple := false }
  | f :: rest =>
    let st := genLoop table rest
    let member :=
      if f.opts.multiple then Member.mk f.name (MemberShape.optList f.ty.toIdent)
      else Member.mk f.name (MemberShape.opt f.ty.toIdent)
    { fields := member :: st.fields,
      queries := QueryStep.mk f.name (predRule table f.name f.opts) :: st.queries,
      hasMultiple := f.opts.multiple || st.hasMultiple }

/-- The page member appended when pagination is enabled. -/
def pageMember : Member := Member.mk "page" (MemberShape.opt "i64")

/-- The per-page member appended when pagination is enabled. -/
def perPageMember : Member := Member.mk "per_page" (MemberShape.opt "i64")

/-- The body of the generated filtered entry point, as an expression tree:
a call of the generated filter function, optionally piped through paginate
and per-page scoping, terminated by load or load-and-count. -/
inductive RExpr where
  | callFilter
  | paginate (e : RExpr)
  | perPage (e : RExpr)
  | loadAndCount (e : RExpr)
  | load (e : RExpr)
deriving DecidableEq

/-- The return type of the generated filtered entry point: a vector of
records, or a vector of records together with the total count. -/
inductive RetTy where
  | vecOnly
  | vecAndCount
deriving DecidableEq

/-- Whether an entry-point body is built on a call of the generated filter
function. -/
def usesFilterFn : RExpr → Bool
  | RExpr.callFilter => true
  | RExpr.paginate e => usesFilterFn e
  | RExpr.perPage e => usesFilterFn e
  | RExpr.loadAndCount e => usesFilterFn e
  | RExpr.load e => usesFilterFn e

/-- The artifacts emitted by the derive entry point: the name of the filters
struct, its members in order, the conditional attachments of the generated
filter function, whether the any-of import is emitted, the table identifier,
the pagination flag, and the body and return type of the filtered entry
point. -/
structure GenOutput where
  filterStructName : String
  members : List Member
  steps : List QueryStep
  usesAny : Bool
  table : String
  pagination : Bool
  filteredBody : RExpr
  filteredReturn : RetTy
deriving DecidableEq

/-- Transcribes the derive entry point: resolve the table name from the
diesel attributes or abort; read the pagination flag from the presence of a
pagination attribute; collect the filters from the data or abort; abort when
no filter was collected; otherwise run the generation loop, append the
pagination members when requested, and emit the artifacts, with the filtered
entry point branching on the pagination flag. -/
def filter (input : DeriveInput) : Except String GenOutput :=
  match findTableName input.attrs with
  | none => Except.error "please provide #[diesel(table_name = ...)] attribute"
  | some table =>
    let pagination := ((input.attrs.filter fun a => a.path == "pagination").getLast?).isSome
    let structName := input.ident
    match collectData input.data with
    | Except.error e => Except.error e
    | Except.ok filters =>
      if filters.isEmpty then
        Except.error "please annotate at least one field to filter with #[filter] on your struct"
      else
        let st := genLoop table filters
        Except.ok
          { filterStructName := structName ++ "Filters",
            members := st.fields ++ (if pagination then [pageMember, perPageMember] else []),
            steps := st.queries,
            usesAny := st.hasMultiple,
            table := table,
            pagination := pagination,
            filteredBody :=
              if pagination then RExpr.loadAndCount (RExpr.perPage (RExpr.paginate RExpr.callFilter))
              else RExpr.load RExpr.callFilter,
            filteredReturn := if pagination then RetTy.vecAndCount else RetTy.vecOnly }

/-- A built query: the boxed base query scoped to the table, with predicates
attached one by one. -/
inductive Query where
  | base (table : String)
  | attach (q : Query) (p : PredRule)
deriving DecidableEq

/-- Runs the generated filter function on a filters value described by its
presence map: start from the base query of the table and, for each generated
conditional attachment in order, attach its predicate exactly when the named
member is present. -/
def runFilter (table : String) (steps : List QueryStep) (present : String → Bool) : Query :=
  steps.foldl (fun q s => if present s.field then Query.attach q s.pred else q) (Query.base table)

/-- Spec-side operator table (section 4.3 of the spec): Exact rows compare
with the equality operator, Substring rows with the containment operator,
and both case-insensitive rows with the case-insensitive operator. -/
def specOp : FilterKind → Op
  | FilterKind.basic => Op.eq
  | FilterKind.substr => Op.like
  | FilterKind.insensitive => Op.ilike
  | FilterKind.substrInsensitive => Op.ilike

/-- Spec-side argument table (section 4.3 of the spec): Single rows take the
supplied value, wrapped with wildcard markers on both sides in the substring
rows; Multiple rows are satisfied when the field matches any of the supplied
values, each value wrapped individually in the substring rows. -/
def specArg : FilterKind → Bool → PredArg
  | FilterKind.basic, false => PredArg.plain
  | FilterKind.substr, false => PredArg.wrapped
  | FilterKind.insensitive, false => PredArg.plain
  | FilterKind.substrInsensitive, false => PredArg.wrapped
  | FilterKind.basic, true => PredArg.anyOf
  | FilterKind.substr, true => PredArg.anyOfWrapped
  | FilterKind.insensitive, true => PredArg.anyOf
  | FilterKind.substrInsensitive, true => PredArg.anyOfWrapped

/-- Spec-side predicate rule: a pure function of the pair of comparison kind
and multiplicity, applied to the scoped table and field. -/
def specPredRule (table fieldName : String) (kind : FilterKind) (multiple : Bool) : PredRule :=
  PredRule.mk table fieldName (specOp kind) (specArg kind multiple)

/-- Spec-side member synthesis (section 4.4 of the spec): one member per
filter field, an optional value for a Single field and an optional list of
values for a Multiple field, the value type derived from the value
category. -/
def specMember (f : Filter) : Member :=
  Member.mk f.name
    (if f.opts.multiple then MemberShape.optList f.ty.toIdent
     else MemberShape.opt f.ty.toIdent)

/-- A well-formed diesel table-name attribute naming the users table. -/
def dieselUsersAttr : Attribute :=
  Attribute.mk "diesel" [Token.ident "table_name", Token.eqTok, Token.ident "users"] Meta.path

/-- A bare filter attribute on a field. -/
def bareFilterAttr : Attribute := Attribute.mk "filter" [] Meta.path

/-- A sample named field of type String carrying a bare filter attribute. -/
def sampleNameField : Field :=
  Field.mk (some "name") (FieldType.path "String") [bareFilterAttr]

/-- A sample derive input: a struct with one annotated named field and a
well-formed diesel table-name attribute, no pagination. -/
def sampleInput : DeriveInput :=
  DeriveInput.mk [dieselUsersAttr] "User" (Data.struct (Fields.named [sampleNameField]))

/-- The artifacts the entry point emits for the sample input. -/
def sampleOutput : GenOutput :=
  { filterStructName := "UserFilters",
    members := [Member.mk "name" (MemberShape.opt "String")],
    steps := [QueryStep.mk "name" (PredRule.mk "users" "name" Op.eq PredArg.plain)],
    usesAny := false,
    table := "users",
    pagination := false,
    filteredBody := RExpr.load RExpr.callFilter,
    filteredReturn := RetTy.vecOnly }

/-- A sample derive input with no attributes at all: a struct with one
annotated named field but no diesel table-name attribute. -/
def noTableInput : DeriveInput :=
  DeriveInput.mk [] "User" (Data.struct (Fields.named [sampleNameField]))

/-- A sample derive input whose only diesel attribute is malformed: the
argument stream reads table rather than the expected table-name key. -/
def malformedDieselInput : DeriveInput :=
  DeriveInput.mk [Attribute.mk "diesel" [Token.ident "table", Token.eqTok, Token.ident "users"] Meta.path]
    "User" (Data.struct (Fields.named [sampleNameField]))

/-- A sample derive input with a well-formed diesel attribute and a struct
with named fields none of which carries a filter attribute. -/
def noFilterInput : DeriveInput :=
  DeriveInput.mk [dieselUsersAttr] "User"
    (Data.struct (Fields.named [Field.mk (some "name") (FieldType.path "String") []]))

/-- A sample enum derive input whose variant fields carry filter attributes,
with a well-formed diesel attribute. -/
def enumInput : DeriveInput :=
  DeriveInput.mk [dieselUsersAttr] "Kind"
    (Data.enum [Variant.mk "V" (Fields.named [sampleNameField])])

/-- A sample enum derive input whose variant fields carry filter attributes
and with no diesel attribute at all. -/
def enumNoTableInput : DeriveInput :=
  DeriveInput.mk [] "Kind" (Data.enum [Variant.mk "V" (Fields.named [sampleNameField])])

/-- A sample paginated derive input: the sample struct plus a pagination
attribute. -/
def paginatedInput : DeriveInput :=
  DeriveInput.mk [dieselUsersAttr, Attribute.mk "pagination" [] Meta.path] "User"
    (Data.struct (Fields.named [sampleNameField]))

/-- The artifacts the entry point emits for the paginated sample input. -/
def paginatedOutput : GenOutput :=
  { filterStructName := "UserFilters",
    members := [Member.mk "name" (MemberShape.opt "String"), pageMember, perPageMember],
    steps := [QueryStep.mk "name" (PredRule.mk "users" "name" Op.eq PredArg.plain)],
    usesAny := false,
    table := "users",
    pagination := true,
    filteredBody := RExpr.loadAndCount (RExpr.perPage (RExpr.paginate RExpr.callFilter)),
    filteredReturn := RetTy.vecAndCount }

theorem genLoop_fields_eq (table : String) (fs : List Filter) :
    (genLoop table fs).fields = fs.map specMember := by
  induction fs with
  | nil => rfl
  | cons f rest ih =>
    cases hm : f.opts.multiple <;> simp [genLoop, specMember, hm, ih]

theorem runFilter_absent (table : String) (steps : List QueryStep) (present : String → Bool)
    (h : ∀ s ∈ steps, present s.field = false) :
    runFilter table steps present = Query.base table := by
  have general : ∀ (l : List QueryStep), (∀ s ∈ l, present s.field = false) → ∀ q : Query,
      l.foldl (fun q s => if present s.field then Query.attach q s.pred else q) q = q := by
    intro l
    induction l with
    | nil => intro _ q; rfl
    | cons s rest ih =>
      intro hl q
      have hs : present s.field = false := hl s (List.mem_cons_self s rest)
      simp only [List.foldl_cons, hs, if_neg Bool.false_ne_true]
      exact ih (fun x hx => hl x (List.mem_cons_of_mem s hx)) q
  exact general steps h (Query.base table)

theorem findTableName_eq_none (attrs : List Attribute)
    (h : ∀ a ∈ attrs, a.path = "diesel" → TableName.parse a.tokens = none) :
    findTableName attrs = none := by
  induction attrs with
  | nil => rfl
  | cons a rest ih =>
    have ihr := ih fun x hx => h x (List.mem_cons_of_mem a hx)
    cases hp : (a.path == "diesel") with
    | false => simpa [findTableName, List.filter_cons, hp] using ihr
    | true =>
      have hnone : TableName.parse a.tokens = none := h a (List.mem_cons_self a rest) (by simpa using hp)
      simpa [findTableName, List.filter_cons, hp, List.filterMap_cons, hnone] using ihr

/-- Claim C1: the generated predicate-construction rule is a pure function of
the pair of comparison kind and multiplicity and follows the section 4.3
table: Single Exact compares with equality on the plain value, Single
Substring uses containment on the value wrapped with wildcard markers on both
sides, the case-insensitive kinds use the case-insensitive operator (wrapped
in the substring case), and each Multiple variant applies the corresponding
per-value predicate over any of the supplied values, each value wrapped
individually in the substring cases. -/
theorem predRule_follows_spec_table (table fieldName : String) (opts : FilterOpts) :
    predRule table fieldName opts = specPredRule table fieldName opts.kind opts.multiple := by
  cases opts with
  | mk multiple kind => cases multiple <;> cases kind <;> rfl

/-- Claim C2: the interpreted options are determined by keyword presence
alone, in any order: multiple is set exactly when the multiple keyword is
present, the kind follows the presence of substring and insensitive, unknown
keywords are ignored without any failure, and a bare annotation, like an
empty keyword list, yields single exact defaults. -/
theorem filterOpts_from_characterization (m : List NestedMeta) :
    (FilterOpts.from m).multiple = ((metaPaths m).any fun p => p == "multiple") ∧
    (FilterOpts.from m).kind =
      (if (((metaPaths m).any fun p => p == "substring") &&
            ((metaPaths m).any fun p => p == "insensitive")) then FilterKind.substrInsensitive
       else if ((metaPaths m).any fun p => p == "substring") then FilterKind.substr
       else if ((metaPaths m).any fun p => p == "insensitive") then FilterKind.insensitive
       else FilterKind.basic) ∧
    FilterOpts.default = FilterOpts.mk false FilterKind.basic ∧
    FilterOpts.from [] = FilterOpts.mk false FilterKind.basic := by
  refine ⟨?_, ?_, rfl, rfl⟩ <;>
    simp [FilterOpts.from, pathsMatch, List.all_cons, List.all_nil, Bool.and_true]

/-- Claim C3: whenever generation succeeds, the filters struct has exactly
one member per collected filter field, in declaration order, shaped as an
optional value for a single field and an optional vector for a multiple
field with the value type derived from the classified category, and the two
optional integer members page and per-page are appended after the per-field
members exactly when pagination is enabled. -/
theorem filter_input_shape (input : DeriveInput) (out : GenOutput)
    (h : filter input = Except.ok out) :
    ∃ fs, collectData input.data = Except.ok fs ∧ fs ≠ [] ∧
      out.members = fs.map specMember ++
        (if out.pagination then [pageMember, perPageMember] else []) := by
  unfold filter at h
  split at h
  · exact absurd h (by simp)
  next table htn =>
    split at h
    · exact absurd h (by simp)
    next fs hc =>
      split at h
      · exact absurd h (by simp)
      next hne =>
        refine ⟨fs, hc, by simpa [List.isEmpty_iff] using hne, ?_⟩
        cases h
        simp [genLoop_fields_eq]

/-- Claim C4: when every filter member of the filters value is absent, the
query assembled by the generated filter function is the unfiltered base
query scoped to the table: no predicate is attached for an absent member. -/
theorem absent_filters_noop (input : DeriveInput) (out : GenOutput) (present : String → Bool)
    (h : filter input = Except.ok out) (habs : ∀ s ∈ out.steps, present s.field = false) :
    runFilter out.table out.steps present = Query.base out.table :=
  runFilter_absent out.table out.steps present habs

/-- Witness for claim C4 at the sample input with the all-absent filters
value. -/
theorem absent_filters_noop_witness :
    filter sampleInput = Except.ok sampleOutput ∧
    (∀ s ∈ sampleOutput.steps, (fun _ => false : String → Bool) s.field = false) ∧
    runFilter sampleOutput.table sampleOutput.steps (fun _ => false) =
      Query.base sampleOutput.table :=
  ⟨rfl, by decide,
    absent_filters_noop sampleInput sampleOutput (fun _ => false) rfl (by decide)⟩

/-- Witness for claim C3 at the paginated sample input. -/
theorem filter_input_shape_witness :
    filter paginatedInput = Except.ok paginatedOutput ∧
    (∃ fs, collectData paginatedInput.data = Except.ok fs ∧ fs ≠ [] ∧
      paginatedOutput.members = fs.map specMember ++
        (if paginatedOutput.pagination then [pageMember, perPageMember] else [])) :=
  ⟨rfl, filter_input_shape paginatedInput paginatedOutput rfl⟩

/-- Counterexample to claim C5: classifying the optional-wrapped form of a
type name does not always agree with classifying the bare name.  An
unrecognized name Foo maps to Foreign Foo while its wrapped form maps to
Foreign of the whole wrapped string, and the recognized name with the
rendered form Option of String classifies as the text category while its
wrapped form falls through to Foreign. -/
theorem classify_option_strip_counterexample :
    FilterableType.fromTypePath "Foo" = FilterableType.foreign "Foo" ∧
    FilterableType.fromTypePath "Option<Foo>" = FilterableType.foreign "Option<Foo>" ∧
    FilterableType.fromTypePath "Option<Foo>" ≠ FilterableType.fromTypePath "Foo" ∧
    FilterableType.fromTypePath "Option<String>" = FilterableType.string ∧
    FilterableType.fromTypePath "Option<Option<String>>" =
      FilterableType.foreign "Option<Option<String>>" ∧
    FilterableType.fromTypePath "Option<Option<String>>" ≠
      FilterableType.fromTypePath "Option<String>" :=
  ⟨rfl, rfl, by decide, rfl, rfl, by decide⟩

/-- Claim C5 as amended: the classifier is a total pure function; every name
outside the six recognized space-stripped forms classifies as Foreign
carrying the raw space-stripped name, and the optional-wrapped forms of the
three recognized base names, and only those, classify the same as their base
names. -/
theorem classify_amended (s : String)
    (h : removeSpaces s ∉
      (["String", "Uuid", "uuid::Uuid", "Option<String>", "Option<Uuid>",
        "Option<uuid::Uuid>"] : List String)) :
    FilterableType.fromTypePath s = FilterableType.foreign (removeSpaces s) ∧
    FilterableType.fromTypePath "Option<String>" = FilterableType.fromTypePath "String" ∧
    FilterableType.fromTypePath "Option<Uuid>" = FilterableType.fromTypePath "Uuid" ∧
    FilterableType.fromTypePath "Option<uuid::Uuid>" =
      FilterableType.fromTypePath "uuid::Uuid" := by
  refine ⟨?_, rfl, rfl, rfl⟩
  simp only [List.mem_cons, List.mem_singleton, not_or] at h
  obtain ⟨h1, h2, h3, h4, h5, h6, -⟩ := h
  unfold FilterableType.fromTypePath
  split <;> simp_all

/-- Witness for the amended claim C5 at the unrecognized name Foo. -/
theorem classify_amended_witness :
    removeSpaces "Foo" ∉
      (["String", "Uuid", "uuid::Uuid", "Option<String>", "Option<Uuid>",
        "Option<uuid::Uuid>"] : List String) ∧
    (FilterableType.fromTypePath "Foo" = FilterableType.foreign (removeSpaces "Foo") ∧
     FilterableType.fromTypePath "Option<String>" = FilterableType.fromTypePath "String" ∧
     FilterableType.fromTypePath "Option<Uuid>" = FilterableType.fromTypePath "Uuid" ∧
     FilterableType.fromTypePath "Option<uuid::Uuid>" =
       FilterableType.fromTypePath "uuid::Uuid") :=
  ⟨by decide, classify_amended "Foo" (by decide)⟩

/-- Claim C6: when the storage identifier resolves and the generator collects
zero filter fields, generation aborts with the no-filterable-fields
diagnostic and emits nothing. -/
theorem no_filterable_fields_diag (input : DeriveInput) (t : String)
    (ht : findTableName input.attrs = some t)
    (hc : collectData input.data = Except.ok []) :
    filter input =
      Except.error "please annotate at least one field to filter with #[filter] on your struct" := by
  simp [filter, ht, hc]

/-- Witness for claim C6 at a struct whose only field carries no filter
attribute. -/
theorem no_filterable_fields_diag_witness :
    findTableName noFilterInput.attrs = some "users" ∧
    collectData noFilterInput.data = Except.ok [] ∧
    filter noFilterInput =
      Except.error "please annotate at least one field to filter with #[filter] on your struct" :=
  ⟨rfl, rfl, no_filterable_fields_diag noFilterInput "users" rfl rfl⟩

/-- Claim C7: when no diesel attribute yields a table name, generation aborts
with the missing-attribute diagnostic before any artifact is emitted. -/
theorem missing_storage_diag (input : DeriveInput)
    (h : findTableName input.attrs = none) :
    filter input = Except.error "please provide #[diesel(table_name = ...)] attribute" := by
  simp [filter, h]

/-- Witness for claim C7 at the attribute-free sample input. -/
theorem missing_storage_diag_witness :
    findTableName noTableInput.attrs = none ∧
    filter noTableInput = Except.error "please provide #[diesel(table_name = ...)] attribute" :=
  ⟨rfl, missing_storage_diag noTableInput rfl⟩

/-- Claim C8: the generated filtered entry point branches on the record-level
pagination opt-in: with pagination it pipes the generated filter query
through page and per-page scoping and loads both the records and the total
count, without it it loads the filter query directly and returns only the
records, and in both cases the body is built on the generated filter
function. -/
theorem filtered_entry_branching (input : DeriveInput) (out : GenOutput)
    (h : filter input = Except.ok out) :
    out.pagination = ((input.attrs.filter fun a => a.path == "pagination").getLast?).isSome ∧
    out.filteredBody =
      (if out.pagination then RExpr.loadAndCount (RExpr.perPage (RExpr.paginate RExpr.callFilter))
       else RExpr.load RExpr.callFilter) ∧
    out.filteredReturn = (if out.pagination then RetTy.vecAndCount else RetTy.vecOnly) ∧
    usesFilterFn out.filteredBody = true := by
  unfold filter at h
  split at h
  · exact absurd h (by simp)
  next table htn =>
    split at h
    · exact absurd h (by simp)
    next fs hc =>
      split at h
      · exact absurd h (by simp)
      next hne =>
        cases h
        refine ⟨rfl, rfl, rfl, ?_⟩
        cases hp : ((input.attrs.filter fun a => a.path == "pagination").getLast?).isSome <;>
          simp [hp, usesFilterFn]

/-- Witness for claim C8 at the paginated sample input. -/
theorem filtered_entry_branching_witness :
    filter paginatedInput = Except.ok paginatedOutput ∧
    (paginatedOutput.pagination =
        ((paginatedInput.attrs.filter fun a => a.path == "pagination").getLast?).isSome ∧
     paginatedOutput.filteredBody =
       (if paginatedOutput.pagination then
          RExpr.loadAndCount (RExpr.perPage (RExpr.paginate RExpr.callFilter))
        else RExpr.load RExpr.callFilter) ∧
     paginatedOutput.filteredReturn =
       (if paginatedOutput.pagination then RetTy.vecAndCount else RetTy.vecOnly) ∧
     usesFilterFn paginatedOutput.filteredBody = true) :=
  ⟨rfl, filtered_entry_branching paginatedInput paginatedOutput rfl⟩

/-- Claim C9: the storage identifier is read only from attributes whose path
is diesel; an argument stream parses only when it is exactly the table-name
key, an equals sign, and one identifier; an attribute whose arguments fail to
parse is silently discarded; and when every diesel attribute fails to parse,
generation aborts with the same generic missing-attribute message as when
the attribute is absent. -/
theorem diesel_tablename_parsing :
    (∀ attrs : List Attribute,
      findTableName attrs = findTableName (attrs.filter fun a => a.path == "diesel")) ∧
    (∀ (toks : List Token) (n : String), TableName.parse toks = some n →
      toks = [Token.ident "table_name", Token.eqTok, Token.ident n]) ∧
    (∀ (a : Attribute) (attrs : List Attribute), TableName.parse a.tokens = none →
      findTableName (a :: attrs) = findTableName attrs) ∧
    (∀ input : DeriveInput,
      (∀ a ∈ input.attrs, a.path = "diesel" → TableName.parse a.tokens = none) →
      filter input = Except.error "please provide #[diesel(table_name = ...)] attribute") := by
  refine ⟨?_, ?_, ?_, ?_⟩
  · intro attrs
    induction attrs with
    | nil => rfl
    | cons a rest ih =>
      cases hp : (a.path == "diesel") with
      | false => simp [findTableName, List.filter_cons, hp]
      | true => simp [findTableName, List.filter_cons, hp]
  · intro toks n h
    unfold TableName.parse at h
    split at h
    next attrName rest =>
      split at h
      · exact absurd h (by simp)
      next hname =>
        have hn : attrName = "table_name" := by simpa using hname
        subst hn
        split at h
        next name => cases h; rfl
        next => exact absurd h (by simp)
    next => exact absurd h (by simp)
  · intro a attrs hnone
    cases hp : (a.path == "diesel") with
    | false => simp [findTableName, List.filter_cons, hp]
    | true => simp [findTableName, List.filter_cons, hp, List.filterMap_cons, hnone]
  · intro input h
    simp [filter, findTableName_eq_none input.attrs h]

/-- Witness for claim C9 at the input whose only diesel attribute is
malformed. -/
theorem diesel_tablename_parsing_witness :
    (∀ a ∈ malformedDieselInput.attrs, a.path = "diesel" → TableName.parse a.tokens = none) ∧
    filter malformedDieselInput =
      Except.error "please provide #[diesel(table_name = ...)] attribute" :=
  ⟨by decide, diesel_tablename_parsing.2.2.2 malformedDieselInput (by decide)⟩

/-- Counterexample to claim C10: a derive input whose data is an enum with a
filter-annotated variant field but with no diesel attribute aborts with the
missing-attribute diagnostic, not with the please-annotate diagnostic the
claim promises for every non-named-struct input. -/
theorem nonstruct_diag_counterexample :
    enumNoTableInput.data.isNamedStruct = false ∧
    filter enumNoTableInput =
      Except.error "please provide #[diesel(table_name = ...)] attribute" ∧
    filter enumNoTableInput ≠
      Except.error "please annotate at least one field to filter with #[filter] on your struct" := by
  refine ⟨rfl, rfl, ?_⟩
  intro hcontra
  have h0 : filter enumNoTableInput =
      Except.error (α := GenOutput) "please provide #[diesel(table_name = ...)] attribute" := rfl
  rw [h0] at hcontra
  exact absurd (Except.error.inj hcontra) (by decide)

/-- Claim C10 as amended: for every derive input that resolves a storage
identifier and whose data is not a struct with named fields, the generator
collects zero filter fields and aborts with the please-annotate diagnostic,
even when fields or variants carry filter annotations; the diagnostic never
mentions the unsupported data shape. -/
theorem nonstruct_please_annotate (input : DeriveInput) (t : String)
    (ht : findTableName input.attrs = some t)
    (hd : input.data.isNamedStruct = false) :
    collectData input.data = Except.ok [] ∧
    filter input =
      Except.error "please annotate at least one field to filter with #[filter] on your struct" := by
  have hc : collectData input.data = Except.ok [] := by
    cases hdata : input.data with
    | struct fs =>
      cases fs with
      | named l => rw [hdata] at hd; simp [Data.isNamedStruct] at hd
      | unnamed l => rfl
      | unit => rfl
    | enum v => rfl
    | union f => rfl
  exact ⟨hc, by simp [filter, ht, hc]⟩

/-- Witness for the amended claim C10 at an enum input with a well-formed
diesel attribute and a filter-annotated variant field. -/
theorem nonstruct_please_annotate_witness :
    findTableName enumInput.attrs = some "users" ∧
    enumInput.data.isNamedStruct = false ∧
    (collectData enumInput.data = Except.ok [] ∧
     filter enumInput =
       Except.error "please annotate at least one field to filter with #[filter] on your struct") :=
  ⟨rfl, rfl, nonstruct_please_annotate enumInput "users" rfl rfl⟩

end DieselFilter
